import Mathlib

/-!
Verification of the mask assembly / splitting logic of utlis/Segmentation.py.

A volumetric image (numpy array) is modelled as a function from a finite
voxel index to a natural-number intensity; a directory of per-organ mask
files is modelled as an association list from filename stem to volume.
All array values appearing in the code are small (ids are at most 86 and
mask intensities at most 255), so natural-number arithmetic with an
explicit mod 256 at the one place where uint8 accumulation happens is a
faithful rendering of the numpy uint8 arithmetic.
-/

namespace Seg

/-- A volume with n voxels: a numpy array flattened to a single index. -/
abbrev Vol (n : Nat) : Type := Fin n → Nat

variable {n : Nat}

/-- Association-list lookup; models both the dictionary lookups and the
search of a directory listing for a given filename stem. -/
def assocFind {α : Type} [DecidableEq α] {β : Type} : List (α × β) → α → Option β
  | [], _ => none
  | p :: ps, k => if p.1 = k then some p.2 else assocFind ps k

/-- Numeric value of a numpy boolean. -/
def boolToNat (b : Bool) : Nat := cond b 1 0

/-- One voxel of the paint step of SegmentAssembleImageFilter.Execute:
seg_minus_organ = seg_bool XOR (seg_bool AND organ_bool);
seg = seg * seg_minus_organ + organ_bool * OrganID[organ_name]. -/
def paintVoxel (s m i : Nat) : Nat :=
  s * boolToNat (Bool.xor (s != 0) ((s != 0) && (m != 0))) + boolToNat (m != 0) * i

/-- Painting one organ mask (with its id) over the running labelled volume. -/
def paintOrgan (seg organ : Vol n) (i : Nat) : Vol n :=
  fun v => paintVoxel (seg v) (organ v) i

/-- The paint loop of SegmentAssembleImageFilter.Execute: iterate the id
table in its key order; whenever the file of the organ is present in the
folder, overwrite the running volume with its mask. -/
def assembleFrom (folder : List (String × Vol n)) (order : List (String × Nat))
    (seg : Vol n) : Vol n :=
  order.foldl (fun acc p =>
    match assocFind folder p.1 with
    | some organ => paintOrgan acc organ p.2
    | none => acc) seg

/-- The OrganID table of SegmentAssembleImageFilter, in its literal key
order (the paint order). -/
def OrganID : List (String × Nat) :=
  [("Outline", 10), ("Body", 10),
   ("Skin", 11), ("Muscle", 13),
   ("Bone", 46), ("Skeleton", 46), ("Marrow", 47),
   ("SCord", 65), ("SpinalCore", 65), ("Brain", 18), ("Eyes", 22),
   ("Lung", 33), ("Heart", 26), ("Breast", 19),
   ("Intestine", 44), ("Liver", 32), ("Kidney", 28), ("Stomach", 67),
   ("ParotidGland", 43),
   ("Bladder", 15), ("Ovary", 86), ("Spleen", 66), ("Thyroid", 70),
   ("Pancrease", 38), ("GallBladder", 24)]

/-- SegmentAssembleImageFilter.Execute: check that every file stem in the
folder is a key of OrganID (assert len(fnames_miss) == 0), then paint all
present organs over a zero background in OrganID key order. -/
def ExecuteAssemble (folder : List (String × Vol n)) : Except String (Vol n) :=
  let miss := (folder.map Prod.fst).filter (fun s => (assocFind OrganID s).isNone)
  if miss.isEmpty then
    Except.ok (assembleFrom folder OrganID (fun _ => 0))
  else
    Except.error ("Missed organ in OrganID.")

/-- The StandardName table of SegmentSplitImageFilter, in its literal key
order. -/
def StandardName : List (Nat × String) :=
  [(10, "Body"), (11, "Skin"), (13, "Muscle"), (15, "Bladder"), (18, "Brain"),
   (19, "Breast"), (21, "Esophagus"), (22, "Eye"), (23, "Len"), (24, "GallBladder"),
   (26, "Heart"), (28, "Kidney"), (29, "Larynx"), (32, "Liver"), (33, "Lung"),
   (37, "OralCavity"), (38, "Pancreas"), (42, "Pituitary"), (43, "Parotid"), (44, "Intestine"),
   (46, "Bone"), (47, "Marrow"), (63, "TMJ"), (65, "SpinalCord"), (66, "Spleen"),
   (67, "Stomach"), (70, "Thyroid"), (73, "Trachea"), (75, "Cochlea"), (76, "BrainStem"),
   (77, "TemporalLobe"), (78, "OpticChiasm"), (79, "OpticalNerve"), (80, "Rectum"), (81, "Sigmoid"),
   (82, "Duodenum"), (86, "Ovary")]

/-- The MultipleOrgans table of SegmentSplitImageFilter. -/
def MultipleOrgans : List (Nat × List Nat) :=
  [(10, [10, 11]), (22, [22, 23]), (18, [18, 76, 77]), (46, [46, 47])]

/-- Single-label extraction: seg_organ[seg != ID] = 0; seg_organ[seg == ID] = 255. -/
def extractOrgan (seg : Vol n) (i : Nat) : Vol n :=
  fun v => if seg v = i then 255 else 0

/-- SegmentSplitImageFilter._AssembleMultipleOrgans: start from a zero
background and accumulate the 0/255 extraction of each listed sub-label
(uint8 accumulation, hence the mod 256). -/
def assembleMultipleOrgans (seg : Vol n) (subs : List Nat) : Vol n :=
  subs.foldl (fun acc i => fun v => (acc v + extractOrgan seg i v) % 256) (fun _ => 0)

/-- The numpy membership test: ID in seg. -/
def containsId (seg : Vol n) (i : Nat) : Bool :=
  decide (∃ v, seg v = i)

/-- Output filename of the splitter: str(ID) + underscore + StandardName[ID] + extension. -/
def splitFileName (i : Nat) (nm : String) : String :=
  toString i ++ "_" ++ nm ++ ".nii"

/-- The per-label mask written by the splitter: the combined extraction
when the label is a key of MultipleOrgans, the single extraction otherwise. -/
def splitOrgan (seg : Vol n) (i : Nat) : Vol n :=
  match assocFind MultipleOrgans i with
  | some subs => assembleMultipleOrgans seg subs
  | none => extractOrgan seg i

/-- SegmentSplitImageFilter.Execute: iterate the StandardName table in key
order, and for every label that occurs in the volume write the mask file
for that label.  The result models the list of written files. -/
def ExecuteSplit (seg : Vol n) : List (String × Vol n) :=
  StandardName.filterMap (fun p =>
    if containsId seg p.1 then some (splitFileName p.1 p.2, splitOrgan seg p.1)
    else none)

/-- A slice file for Jpg2niiConverter.OrganConvert: its sniffed content
type, its z layer (the value of GetImageLayerMethod on its name), and its
grayscale pixel content. -/
structure SliceFile (z r c : Nat) where
  kind : String
  layer : Fin z
  img : Fin r → Fin c → Nat

/-- seg[z] = seg_slice. -/
def placeSlice {z r c : Nat} (seg : Fin z → Fin r → Fin c → Nat)
    (f : SliceFile z r c) : Fin z → Fin r → Fin c → Nat :=
  fun i => if i = f.layer then f.img else seg i

/-- The file loop of OrganConvert: for each file, first assert that its
sniffed type is jpg (aborting the whole loop otherwise), then place its
slice at its layer.  Returns the in-memory volume reached when the loop
stops together with the error, if any. -/
def convertLoop {z r c : Nat} :
    List (SliceFile z r c) → (Fin z → Fin r → Fin c → Nat) →
      ((Fin z → Fin r → Fin c → Nat) × Option String)
  | [], seg => (seg, none)
  | f :: fs, seg =>
      if f.kind = "jpg" then convertLoop fs (placeSlice seg f)
      else (seg, some ("Wrong type in specified folder."))

/-- All slices of a list of files placed in order (the loop when no file
fails the type check). -/
def placeAll {z r c : Nat} (files : List (SliceFile z r c))
    (seg : Fin z → Fin r → Fin c → Nat) : Fin z → Fin r → Fin c → Nat :=
  files.foldl placeSlice seg

/-- The two sequential masked assignments of OrganConvert:
seg[seg > threshold] = 255, then seg[seg <= threshold] = 0. -/
def binarize (t v : Nat) : Nat :=
  let v1 := if t < v then 255 else v
  if v1 ≤ t then 0 else v1

/-- np.flip with no axis argument: reverse every axis. -/
def npFlip {z r c : Nat} (seg : Fin z → Fin r → Fin c → Nat) :
    Fin z → Fin r → Fin c → Nat :=
  fun i j k => seg i.rev j.rev k.rev

/-- Reversal of axis 0 only. -/
def flipAxis0 {z r c : Nat} (seg : Fin z → Fin r → Fin c → Nat) :
    Fin z → Fin r → Fin c → Nat :=
  fun i j k => seg i.rev j k

/-- Reversal of axis 1 only. -/
def flipAxis1 {z r c : Nat} (seg : Fin z → Fin r → Fin c → Nat) :
    Fin z → Fin r → Fin c → Nat :=
  fun i j k => seg i j.rev k

/-- Reversal of axis 2 only. -/
def flipAxis2 {z r c : Nat} (seg : Fin z → Fin r → Fin c → Nat) :
    Fin z → Fin r → Fin c → Nat :=
  fun i j k => seg i j k.rev

/-- Jpg2niiConverter.OrganConvert: run the slice loop over a zero
background; on success binarize with the threshold and flip every axis
(np.flip of the whole array); on a failed type check no output is written. -/
def OrganConvert {z r c : Nat} (files : List (SliceFile z r c)) (t : Nat) :
    Except String (Fin z → Fin r → Fin c → Nat) :=
  match convertLoop files (fun _ _ _ => 0) with
  | (_, some e) => Except.error e
  | (seg, none) => Except.ok (npFlip (fun i j k => binarize t (seg i j k)))

/-- Foreground voxel count of a mask after astype(bool): np.sum(img). -/
def countFg (m : Vol n) : Nat :=
  (Finset.univ.filter (fun v => m v ≠ 0)).card

/-- Overlap voxel count of two masks: np.sum(img_i * img_j) on booleans. -/
def countOverlap (a b : Vol n) : Nat :=
  (Finset.univ.filter (fun v => a v ≠ 0 ∧ b v ≠ 0)).card

/-- Round half to even to an integer (the rounding of np.round), on exact
rational arithmetic standing in for float64. -/
def rhe (x : ℚ) : ℤ :=
  if x - ⌊x⌋ < 1 / 2 then ⌊x⌋
  else if 1 / 2 < x - ⌊x⌋ then ⌊x⌋ + 1
  else if ⌊x⌋ % 2 = 0 then ⌊x⌋ else ⌊x⌋ + 1

/-- np.round(x, decimals = 1). -/
def round1 (x : ℚ) : ℚ := (rhe (10 * x) : ℚ) / 10

/-- The print condition of AnalyseOverlap for one pair of masks:
overlap != 0 and (percent_i >= 1 or percent_j >= 1). -/
def overlapReported (a b : Vol n) : Bool :=
  decide (countOverlap a b ≠ 0 ∧
    (1 ≤ round1 ((countOverlap a b : ℚ) / (countFg a : ℚ) * 100) ∨
     1 ≤ round1 ((countOverlap a b : ℚ) / (countFg b : ℚ) * 100)))

/-- The double loop for i in range(len), for j in range(i+1, len): all
ordered pairs of distinct positions. -/
def allPairs {α : Type} : List α → List (α × α)
  | [] => []
  | x :: xs => xs.map (fun y => (x, y)) ++ allPairs xs

/-- SegmentAssembleImageFilter.AnalyseOverlap: drop the stop list, then
report exactly the pairs satisfying the print condition.  The function
only prints; the returned list models the reported pairs and no file is
produced. -/
def AnalyseOverlap (folder : List (String × Vol n)) (stop : List String) :
    List ((String × Vol n) × (String × Vol n)) :=
  let organs := folder.filter (fun p => !(stop.contains p.1))
  (allPairs organs).filter (fun pr => overlapReported pr.1.2 pr.2.2)

/-! ### Characterisation of the assembler paint loop -/

lemma paintOrgan_apply (seg organ : Vol n) (i : Nat) (v : Fin n) :
    paintOrgan seg organ i v = if organ v ≠ 0 then i else seg v := by
  unfold paintOrgan paintVoxel boolToNat
  by_cases hm : organ v = 0
  · have hb : (organ v != 0) = false := by simp [hm]
    by_cases hs : seg v = 0
    · have hsb : (seg v != 0) = false := by simp [hs]
      simp [hb, hsb, hm, hs]
    · have hsb : (seg v != 0) = true := by simp [hs]
      simp [hb, hsb, hm]
  · have hb : (organ v != 0) = true := by simp [hm]
    by_cases hs : seg v = 0
    · have hsb : (seg v != 0) = false := by simp [hs]
      simp [hb, hsb, hm, hs]
    · have hsb : (seg v != 0) = true := by simp [hs]
      simp [hb, hsb, hm]

def activeAt (folder : List (String × Vol n)) (p : String × Nat) (v : Fin n) : Prop :=
  ∃ m, assocFind folder p.1 = some m ∧ m v ≠ 0

def lastPaintFrom (folder : List (String × Vol n)) (order : List (String × Nat))
    (v : Fin n) (acc : Option Nat) : Option Nat :=
  order.foldl (fun a p =>
    match assocFind folder p.1 with
    | some m => if m v ≠ 0 then some p.2 else a
    | none => a) acc

lemma lastPaint_some (folder : List (String × Vol n)) (v : Fin n) :
    ∀ (order : List (String × Nat)) (x : Nat),
      lastPaintFrom folder order v (some x) =
        some ((lastPaintFrom folder order v none).getD x) := by
  intro order
  induction order with
  | nil => intro x; simp [lastPaintFrom]
  | cons p rest ih =>
    intro x
    simp only [lastPaintFrom, List.foldl_cons]
    cases h : assocFind folder p.1 with
    | none =>
      show lastPaintFrom folder rest v (some x) =
        some ((lastPaintFrom folder rest v none).getD x)
      exact ih x
    | some m =>
      by_cases hm : m v ≠ 0
      · simp only [if_pos hm]
        show lastPaintFrom folder rest v (some p.2) =
          some ((lastPaintFrom folder rest v (some p.2)).getD x)
        rw [ih p.2]
        simp
      · simp only [if_neg hm]
        exact ih x

lemma lastPaint_inactive (folder : List (String × Vol n)) (v : Fin n) :
    ∀ (order : List (String × Nat)),
      (∀ p ∈ order, ¬ activeAt folder p v) →
      ∀ acc, lastPaintFrom folder order v acc = acc := by
  intro order
  induction order with
  | nil => intro _ acc; rfl
  | cons p rest ih =>
    intro h acc
    simp only [lastPaintFrom, List.foldl_cons]
    have hstep : (match assocFind folder p.1 with
        | some m => if m v ≠ 0 then some p.2 else acc
        | none => acc) = acc := by
      cases hf : assocFind folder p.1 with
      | none => rfl
      | some m =>
        have hact : ¬ activeAt folder p v := h p (List.mem_cons_self p rest)
        have hm : ¬ m v ≠ 0 := fun hne => hact ⟨m, hf, hne⟩
        simp [hm]
    rw [hstep]
    exact ih (fun q hq => h q (List.mem_cons_of_mem p hq)) acc

lemma assembleFrom_char (folder : List (String × Vol n)) :
    ∀ (order : List (String × Nat)) (seg : Vol n) (v : Fin n),
      assembleFrom folder order seg v =
        (lastPaintFrom folder order v none).getD (seg v) := by
  intro order
  induction order with
  | nil => intro seg v; rfl
  | cons p rest ih =>
    intro seg v
    simp only [assembleFrom, lastPaintFrom, List.foldl_cons]
    cases h : assocFind folder p.1 with
    | none =>
      exact ih seg v
    | some m =>
      by_cases hm : m v ≠ 0
      · simp only [if_pos hm]
        have h1 : assembleFrom folder rest (paintOrgan seg m p.2) v =
            (lastPaintFrom folder rest v none).getD (paintOrgan seg m p.2 v) := ih _ v
        have h2 : lastPaintFrom folder rest v (some p.2) =
            some ((lastPaintFrom folder rest v none).getD p.2) :=
          lastPaint_some folder v rest p.2
        show assembleFrom folder rest (paintOrgan seg m p.2) v =
          (lastPaintFrom folder rest v (some p.2)).getD (seg v)
        rw [h1, h2, paintOrgan_apply]
        simp [hm]
      · simp only [if_neg hm]
        have h1 : assembleFrom folder rest (paintOrgan seg m p.2) v =
            (lastPaintFrom folder rest v none).getD (paintOrgan seg m p.2 v) := ih _ v
        show assembleFrom folder rest (paintOrgan seg m p.2) v =
          (lastPaintFrom folder rest v none).getD (seg v)
        rw [h1, paintOrgan_apply]
        simp [hm]


/-! ### Lookup and uniqueness lemmas -/

lemma assocFind_mem {α β : Type} [DecidableEq α] :
    ∀ {l : List (α × β)} {k : α} {b : β}, assocFind l k = some b → (k, b) ∈ l := by
  intro l
  induction l with
  | nil => intro k b h; simp [assocFind] at h
  | cons p ps ih =>
    intro k b h
    simp only [assocFind] at h
    by_cases hk : p.1 = k
    · rw [if_pos hk] at h
      have : p = (k, b) := by
        cases p
        simp_all
      rw [← this]
      exact List.mem_cons_self p ps
    · rw [if_neg hk] at h
      exact List.mem_cons_of_mem p (ih h)

lemma assocFind_eq_none {α β : Type} [DecidableEq α] :
    ∀ {l : List (α × β)} {k : α}, k ∉ l.map Prod.fst → assocFind l k = none := by
  intro l
  induction l with
  | nil => intro k _; rfl
  | cons p ps ih =>
    intro k hk
    simp only [List.map_cons, List.mem_cons] at hk
    push_neg at hk
    simp only [assocFind]
    rw [if_neg (fun h => hk.1 h.symm)]
    exact ih hk.2

lemma assocFind_self {α β : Type} [DecidableEq α] :
    ∀ {l : List (α × β)} {p : α × β}, (l.map Prod.fst).Nodup → p ∈ l →
      assocFind l p.1 = some p.2 := by
  intro l
  induction l with
  | nil => intro p _ hp; simp at hp
  | cons q qs ih =>
    intro p hnd hp
    simp only [List.map_cons, List.nodup_cons] at hnd
    rcases List.mem_cons.mp hp with hpq | hps
    · rw [hpq]
      simp [assocFind]
    · have hne : q.1 ≠ p.1 := by
        intro he
        exact hnd.1 (he ▸ List.mem_map_of_mem Prod.fst hps)
      simp only [assocFind]
      rw [if_neg hne]
      exact ih hnd.2 hps

lemma keys_nodup_inj {α β : Type} :
    ∀ {l : List (α × β)} {p q : α × β}, (l.map Prod.fst).Nodup →
      p ∈ l → q ∈ l → p.1 = q.1 → p = q := by
  intro l
  induction l with
  | nil => intro p q _ hp; simp at hp
  | cons r rs ih =>
    intro p q hnd hp hq he
    simp only [List.map_cons, List.nodup_cons] at hnd
    rcases List.mem_cons.mp hp with hp1 | hp2 <;> rcases List.mem_cons.mp hq with hq1 | hq2
    · rw [hp1, hq1]
    · exfalso
      apply hnd.1
      rw [hp1] at he
      exact he ▸ List.mem_map_of_mem Prod.fst hq2
    · exfalso
      apply hnd.1
      rw [hq1] at he
      exact he.symm ▸ List.mem_map_of_mem Prod.fst hp2
    · exact ih hnd.2 hp2 hq2 he

lemma lastPaint_unique (folder : List (String × Vol n)) (v : Fin n) (i₀ : Nat) :
    ∀ (order : List (String × Nat)),
      (∃ p ∈ order, activeAt folder p v) →
      (∀ p ∈ order, activeAt folder p v → p.2 = i₀) →
      ∀ acc, lastPaintFrom folder order v acc = some i₀ := by
  intro order
  induction order with
  | nil => rintro ⟨p, hp, -⟩; simp at hp
  | cons p rest ih =>
    intro hex hall acc
    simp only [lastPaintFrom, List.foldl_cons]
    by_cases hrest : ∃ q ∈ rest, activeAt folder q v
    · exact ih hrest (fun q hq ha => hall q (List.mem_cons_of_mem p hq) ha) _
    · have hp : activeAt folder p v := by
        rcases hex with ⟨q, hq, ha⟩
        rcases List.mem_cons.mp hq with h1 | h2
        · exact h1 ▸ ha
        · exact absurd ⟨q, h2, ha⟩ hrest
      rcases hp with ⟨m, hf, hm⟩
      have hstep : (match assocFind folder p.1 with
          | some m => if m v ≠ 0 then some p.2 else acc
          | none => acc) = some p.2 := by
        rw [hf]
        simp [hm]
      rw [hstep]
      have hinact : ∀ q ∈ rest, ¬ activeAt folder q v := by
        intro q hq ha
        exact hrest ⟨q, hq, ha⟩
      show lastPaintFrom folder rest v (some p.2) = some i₀
      rw [lastPaint_inactive folder v rest hinact _]
      rw [hall p (List.mem_cons_self p rest) ⟨m, hf, hm⟩]

lemma lastPaint_active_of_some (folder : List (String × Vol n)) (v : Fin n) :
    ∀ (order : List (String × Nat)) (acc : Option Nat) (i : Nat),
      lastPaintFrom folder order v acc = some i →
      (∃ p ∈ order, activeAt folder p v ∧ p.2 = i) ∨ acc = some i := by
  intro order
  induction order with
  | nil => intro acc i h; exact Or.inr h
  | cons p rest ih =>
    intro acc i h
    simp only [lastPaintFrom, List.foldl_cons] at h
    cases hf : assocFind folder p.1 with
    | none =>
      rw [hf] at h
      rcases ih acc i h with ⟨q, hq, ha, he⟩ | hacc
      · exact Or.inl ⟨q, List.mem_cons_of_mem p hq, ha, he⟩
      · exact Or.inr hacc
    | some m =>
      have hstep : (match assocFind folder p.1 with
          | some mm => if mm v ≠ 0 then some p.2 else acc
          | none => acc) = (if m v ≠ 0 then some p.2 else acc) := by
        rw [hf]
      rw [hstep] at h
      by_cases hm : m v ≠ 0
      · rw [if_pos hm] at h
        rcases ih _ i h with ⟨q, hq, ha, he⟩ | hacc
        · exact Or.inl ⟨q, List.mem_cons_of_mem p hq, ha, he⟩
        · exact Or.inl ⟨p, List.mem_cons_self p rest, ⟨m, hf, hm⟩,
            Option.some.inj hacc⟩
      · rw [if_neg hm] at h
        rcases ih acc i h with ⟨q, hq, ha, he⟩ | hacc
        · exact Or.inl ⟨q, List.mem_cons_of_mem p hq, ha, he⟩
        · exact Or.inr hacc

lemma sum_single {α β : Type} :
    ∀ {l : List (α × β)} {p₀ : α × β} (f : α × β → Nat),
      (l.map Prod.fst).Nodup → p₀ ∈ l →
      (∀ q ∈ l, q.1 ≠ p₀.1 → f q = 0) →
      (l.map f).sum = f p₀ := by
  intro l
  induction l with
  | nil => intro p₀ f _ hp; simp at hp
  | cons r rs ih =>
    intro p₀ f hnd hp hz
    simp only [List.map_cons, List.nodup_cons] at hnd
    simp only [List.map_cons, List.sum_cons]
    rcases List.mem_cons.mp hp with hp1 | hp2
    · have hrs : ∀ q ∈ rs, f q = 0 := by
        intro q hq
        apply hz q (List.mem_cons_of_mem r hq)
        intro he
        have hqr : q.1 = r.1 := by rw [← hp1]; exact he
        exact hnd.1 (hqr ▸ List.mem_map_of_mem Prod.fst hq)
      rw [List.sum_eq_zero (by
        intro x hx
        rcases List.mem_map.mp hx with ⟨q, hq, hfq⟩
        rw [← hfq]
        exact hrs q hq)]
      rw [hp1]
      simp
    · have hr0 : f r = 0 := by
        apply hz r (List.mem_cons_self r rs)
        intro he
        exact hnd.1 (he.symm ▸ List.mem_map_of_mem Prod.fst hp2)
      rw [hr0, ih f hnd.2 hp2
        (fun q hq hne => hz q (List.mem_cons_of_mem r hq) hne)]
      simp


/-! ### Table facts and splitter lemmas -/

lemma organID_keys_nodup : (OrganID.map Prod.fst).Nodup := by decide

lemma organID_vals_pos : ∀ p ∈ OrganID, p.2 ≠ 0 := by decide

lemma standardName_keys_nodup : (StandardName.map Prod.fst).Nodup := by decide

lemma splitFileName_inj : ∀ p ∈ StandardName, ∀ q ∈ StandardName,
    splitFileName p.1 p.2 = splitFileName q.1 q.2 → p = q := by decide

lemma multipleOrgans_nodup : ∀ p ∈ MultipleOrgans, p.2.Nodup := by decide

lemma multipleOrgans_main_mem : ∀ p ∈ MultipleOrgans, p.1 ∈ p.2 := by decide

lemma containsId_iff (seg : Vol n) (i : Nat) :
    containsId seg i = true ↔ ∃ v, seg v = i := by
  simp [containsId]

/-! ### The combined-organ extraction -/

lemma amo_fold (seg : Vol n) :
    ∀ (subs : List Nat) (acc : Vol n) (v : Fin n), acc v < 256 →
      (subs.foldl (fun acc i => fun v => (acc v + extractOrgan seg i v) % 256) acc) v =
        (acc v + (subs.map (fun i => extractOrgan seg i v)).sum) % 256 := by
  intro subs
  induction subs with
  | nil =>
    intro acc v hlt
    simp [Nat.mod_eq_of_lt hlt]
  | cons s rest ih =>
    intro acc v hlt
    simp only [List.foldl_cons, List.map_cons, List.sum_cons]
    rw [ih _ v (Nat.mod_lt _ (by omega))]
    rw [Nat.mod_add_mod]
    ring_nf

lemma extract_sum_of_nodup (seg : Vol n) :
    ∀ (subs : List Nat), subs.Nodup → ∀ (v : Fin n),
      (subs.map (fun i => extractOrgan seg i v)).sum =
        if (∃ s ∈ subs, seg v = s) then 255 else 0 := by
  intro subs
  induction subs with
  | nil => intro _ v; simp
  | cons s rest ih =>
    intro hnd v
    rcases List.nodup_cons.mp hnd with ⟨hs, hrest⟩
    simp only [List.map_cons, List.sum_cons]
    rw [ih hrest v]
    by_cases hv : seg v = s
    · have hnone : ¬ ∃ t ∈ rest, seg v = t := by
        rintro ⟨t, ht, he⟩
        exact hs (by rw [← he, hv] at ht; exact ht)
      rw [if_neg hnone]
      have hyes : ∃ t ∈ s :: rest, seg v = t := ⟨s, List.mem_cons_self s rest, hv⟩
      rw [if_pos hyes]
      simp [extractOrgan, hv]
    · simp only [extractOrgan, if_neg hv, Nat.zero_add]
      by_cases hr : ∃ t ∈ rest, seg v = t
      · rw [if_pos hr, if_pos (by rcases hr with ⟨t, ht, he⟩; exact ⟨t, List.mem_cons_of_mem s ht, he⟩)]
      · rw [if_neg hr, if_neg (by
          rintro ⟨t, ht, he⟩
          rcases List.mem_cons.mp ht with h1 | h2
          · exact hv (h1 ▸ he)
          · exact hr ⟨t, h2, he⟩)]

lemma amo_spec (seg : Vol n) (subs : List Nat) (hnd : subs.Nodup) (v : Fin n) :
    assembleMultipleOrgans seg subs v = if (∃ s ∈ subs, seg v = s) then 255 else 0 := by
  unfold assembleMultipleOrgans
  rw [amo_fold seg subs (fun _ => 0) v (by show (0:Nat) < 256; omega)]
  rw [extract_sum_of_nodup seg subs hnd v]
  by_cases h : ∃ s ∈ subs, seg v = s <;> simp [h]

lemma amo_sum (seg : Vol n) (subs : List Nat) (hnd : subs.Nodup) (v : Fin n) :
    assembleMultipleOrgans seg subs v = (subs.map (fun i => extractOrgan seg i v)).sum := by
  rw [amo_spec seg subs hnd v]
  rw [extract_sum_of_nodup seg subs hnd v]

/-! ### Membership in the splitter output -/

lemma executeSplit_mem_of (seg : Vol n) {p : Nat × String} (hp : p ∈ StandardName)
    (hc : containsId seg p.1 = true) :
    (splitFileName p.1 p.2, splitOrgan seg p.1) ∈ ExecuteSplit seg := by
  unfold ExecuteSplit
  apply List.mem_filterMap.mpr
  exact ⟨p, hp, by rw [hc]; rfl⟩

lemma executeSplit_source (seg : Vol n) {e : String × Vol n} (he : e ∈ ExecuteSplit seg) :
    ∃ p ∈ StandardName, containsId seg p.1 = true ∧
      e = (splitFileName p.1 p.2, splitOrgan seg p.1) := by
  unfold ExecuteSplit at he
  rcases List.mem_filterMap.mp he with ⟨p, hp, hsome⟩
  by_cases hc : containsId seg p.1 = true
  · rw [if_pos hc] at hsome
    exact ⟨p, hp, hc, (Option.some.inj hsome).symm⟩
  · rw [if_neg hc] at hsome
    exact absurd hsome (by simp)


lemma convertLoop_append_good {z r c : Nat} :
    ∀ (pre rest : List (SliceFile z r c)) (seg : Fin z → Fin r → Fin c → Nat),
      (∀ f ∈ pre, f.kind = "jpg") →
      convertLoop (pre ++ rest) seg = convertLoop rest (placeAll pre seg) := by
  intro pre
  induction pre with
  | nil => intro rest seg _; rfl
  | cons f fs ih =>
    intro rest seg h
    have hf : f.kind = "jpg" := h f (List.mem_cons_self f fs)
    simp only [List.cons_append, convertLoop, if_pos hf]
    show convertLoop (fs ++ rest) (placeSlice seg f) = convertLoop rest (placeAll (f :: fs) seg)
    rw [ih rest (placeSlice seg f) (fun g hg => h g (List.mem_cons_of_mem f hg))]
    rfl

lemma convertLoop_good {z r c : Nat} :
    ∀ (files : List (SliceFile z r c)) (seg : Fin z → Fin r → Fin c → Nat),
      (∀ f ∈ files, f.kind = "jpg") →
      convertLoop files seg = (placeAll files seg, none) := by
  intro files seg h
  have h1 : convertLoop (files ++ []) seg = convertLoop [] (placeAll files seg) :=
    convertLoop_append_good files [] seg h
  rw [List.append_nil] at h1
  rw [h1]
  rfl

lemma convertLoop_no_error {z r c : Nat} :
    ∀ (files : List (SliceFile z r c)) (seg : Fin z → Fin r → Fin c → Nat),
      (convertLoop files seg).2 = none →
      (∀ f ∈ files, f.kind = "jpg") := by
  intro files
  induction files with
  | nil => intro seg _ f hf; simp at hf
  | cons g gs ih =>
    intro seg h f hf
    by_cases hg : g.kind = "jpg"
    · rcases List.mem_cons.mp hf with h1 | h2
      · rw [h1]; exact hg
      · apply ih (placeSlice seg g) _ f h2
        rw [show convertLoop (g :: gs) seg = convertLoop gs (placeSlice seg g) by
          simp only [convertLoop, if_pos hg]] at h
        exact h
    · rw [show convertLoop (g :: gs) seg = (seg, some ("Wrong type in specified folder.")) by
        simp only [convertLoop, if_neg hg]] at h
      simp at h

/-! ### C1 -/

/-- C1: later-wins overlap resolution.  If the input files are exactly the
masks of A and B, and the name of A precedes the name of B in the
paint-order table, then every voxel at which both masks are foreground
receives the id of B; in
particular with paint order A to 1, B to 2, mask A foreground at voxels
0, 1, 2 and mask B foreground at voxels 2, 3, the assembled volume is
1, 1, 2, 2. -/
theorem C1_later_wins :
    (∀ (n : Nat) (l₁ l₂ l₃ : List (String × Nat)) (A B : String) (a b : Nat)
        (mA mB : Vol n) (v : Fin n),
        ((l₁ ++ (A, a) :: l₂ ++ (B, b) :: l₃).map Prod.fst).Nodup →
        mA v ≠ 0 → mB v ≠ 0 →
        assembleFrom [(A, mA), (B, mB)] (l₁ ++ (A, a) :: l₂ ++ (B, b) :: l₃)
          (fun _ => 0) v = b) ∧
      assembleFrom [(("A"), ![255, 255, 255, 0]), (("B"), ![0, 0, 255, 255])]
        [(("A"), 1), (("B"), 2)] (fun _ => 0) = ![1, 1, 2, 2] := by
  constructor
  · intro n l₁ l₂ l₃ A B a b mA mB v hnd hA hB
    rw [assembleFrom_char]
    rw [List.map_append, List.map_cons] at hnd
    have hparts := List.nodup_append.mp hnd
    have hAmem : (A : String) ∈ (l₁ ++ (A, a) :: l₂).map Prod.fst := by
      rw [List.map_append, List.map_cons]
      exact List.mem_append.mpr (Or.inr (List.mem_cons_self A _))
    have hAnot : (A : String) ∉ (B :: l₃.map Prod.fst) := fun hm => hparts.2.2 hAmem hm
    have hAB : A ≠ B := fun he => hAnot (by rw [he]; exact List.mem_cons_self B _)
    have hAl₃ : (A : String) ∉ l₃.map Prod.fst :=
      fun hm => hAnot (List.mem_cons_of_mem B hm)
    have hBl₃ : (B : String) ∉ l₃.map Prod.fst := (List.nodup_cons.mp hparts.2.1).1
    have hinact : ∀ p ∈ l₃, ¬ activeAt [(A, mA), (B, mB)] p v := by
      intro p hp ⟨m, hfind, _⟩
      have hmem := assocFind_mem hfind
      rcases List.mem_cons.mp hmem with h1 | h2
      · apply hAl₃
        have hpA : p.1 = A := congrArg Prod.fst h1
        exact hpA ▸ List.mem_map_of_mem Prod.fst hp
      · rcases List.mem_cons.mp h2 with h3 | h4
        · apply hBl₃
          have hpB : p.1 = B := congrArg Prod.fst h3
          exact hpB ▸ List.mem_map_of_mem Prod.fst hp
        · simp at h4
    unfold lastPaintFrom
    rw [List.foldl_append, List.foldl_cons]
    have hfindB : assocFind [(A, mA), (B, mB)] B = some mB := by
      simp [assocFind, hAB]
    simp only [hfindB]
    rw [if_pos hB]
    exact congrArg (Option.getD · 0) (lastPaint_inactive _ v l₃ hinact (some b))
  · funext v
    fin_cases v <;> rfl


/-- C1 witness: the example of the claim itself, painted with order A to 1, B to 2,
at the overlap voxel 2. -/
theorem C1_later_wins_witness :
    assembleFrom [(("A"), ![255, 255, 255, 0]), (("B"), ![0, 0, 255, 255])]
      ([] ++ (("A"), 1) :: [] ++ (("B"), 2) :: []) (fun _ => 0) (2 : Fin 4) = 2 :=
  C1_later_wins.1 4 [] [] [] ("A") ("B") 1 2 _ _ 2 (by decide) (by decide) (by decide)

/-- C4: for an id that is a key of MultipleOrgans, the mask computed by
_AssembleMultipleOrgans is the sum of the single-label extraction masks of
its sub-labels, and that sum is their voxel-wise union (255 where the voxel
carries one of the sub-labels, 0 elsewhere). -/
theorem C4_multi_union :
    ∀ (n : Nat) (seg : Vol n) (i : Nat) (subs : List Nat),
      assocFind MultipleOrgans i = some subs → ∀ (v : Fin n),
        assembleMultipleOrgans seg subs v = (subs.map (fun s => extractOrgan seg s v)).sum ∧
        assembleMultipleOrgans seg subs v = (if (∃ s ∈ subs, seg v = s) then 255 else 0) := by
  intro n seg i subs h v
  have hnd : subs.Nodup := multipleOrgans_nodup _ (assocFind_mem h)
  exact ⟨amo_sum seg subs hnd v, amo_spec seg subs hnd v⟩

/-- C4 witness: the Bone group 46 with sub-labels 46 and 47 on a small
volume. -/
theorem C4_multi_union_witness :
    assembleMultipleOrgans (![46, 47, 0] : Vol 3) [46, 47] 0 =
      ([46, 47].map (fun s => extractOrgan (![46, 47, 0] : Vol 3) s 0)).sum :=
  (C4_multi_union 3 (![46, 47, 0]) 46 [46, 47] (by decide) 0).1

/-- C5: completeness pre-validation of the assembler.  If some file stem is
not a key of OrganID then Execute stops with the configuration error and
produces no volume; if every stem is a key, no error is raised and the
painted volume is returned. -/
theorem C5_validation :
    ∀ (n : Nat) (folder : List (String × Vol n)),
      ((∃ p ∈ folder, assocFind OrganID p.1 = none) →
        ExecuteAssemble folder = Except.error ("Missed organ in OrganID.")) ∧
      ((∀ p ∈ folder, (assocFind OrganID p.1).isSome) →
        ExecuteAssemble folder = Except.ok (assembleFrom folder OrganID (fun _ => 0))) := by
  intro n folder
  constructor
  · rintro ⟨p, hp, hnone⟩
    show (if ((folder.map Prod.fst).filter
        (fun s => (assocFind OrganID s).isNone)).isEmpty then _ else _) = _
    have hmem : p.1 ∈ (folder.map Prod.fst).filter
        (fun s => (assocFind OrganID s).isNone) :=
      List.mem_filter.mpr ⟨List.mem_map_of_mem Prod.fst hp, by rw [hnone]; rfl⟩
    rw [if_neg (by
      intro he
      rw [List.isEmpty_iff] at he
      rw [he] at hmem
      simp at hmem)]
  · intro hall
    show (if ((folder.map Prod.fst).filter
        (fun s => (assocFind OrganID s).isNone)).isEmpty then _ else _) = _
    rw [if_pos (by
      rw [List.isEmpty_iff]
      apply List.filter_eq_nil_iff.mpr
      intro s hs
      rcases List.mem_map.mp hs with ⟨q, hq, hqs⟩
      have := hall q hq
      rcases Option.isSome_iff_exists.mp this with ⟨b, hb⟩
      rw [← hqs, hb]
      simp)]

/-- C5 witness: a folder holding one file whose stem Foo is not in the id
table is rejected. -/
theorem C5_validation_witness :
    ExecuteAssemble ([(("Foo", fun _ => 255))] : List (String × Vol 1)) =
      Except.error ("Missed organ in OrganID.") :=
  (C5_validation 1 _).1 ⟨(("Foo", fun _ => 255)), List.mem_cons_self _ _, by decide⟩

/-- C6: the splitter writes a file for a label of StandardName exactly when
the label occurs in the volume; in particular a MultipleOrgans id whose
sub-labels are all absent gets no file. -/
theorem C6_emit_iff :
    ∀ (n : Nat) (seg : Vol n) (i : Nat) (nm : String),
      (i, nm) ∈ StandardName →
      ((∃ e ∈ ExecuteSplit seg, e.1 = splitFileName i nm) ↔ ∃ v, seg v = i) ∧
      (∀ subs, assocFind MultipleOrgans i = some subs →
        (∀ s ∈ subs, ∀ v, seg v ≠ s) →
        ¬ ∃ e ∈ ExecuteSplit seg, e.1 = splitFileName i nm) := by
  intro n seg i nm hmem
  have hiff : (∃ e ∈ ExecuteSplit seg, e.1 = splitFileName i nm) ↔ ∃ v, seg v = i := by
    constructor
    · rintro ⟨e, he, hname⟩
      rcases executeSplit_source seg he with ⟨p, hp, hc, hep⟩
      have hpe : p = (i, nm) := by
        apply splitFileName_inj p hp (i, nm) hmem
        rw [hep] at hname
        exact hname
      rw [hpe] at hc
      exact (containsId_iff seg i).mp hc
    · intro hex
      exact ⟨(splitFileName i nm, splitOrgan seg i),
        executeSplit_mem_of seg hmem ((containsId_iff seg i).mpr hex), rfl⟩
  refine ⟨hiff, ?_⟩
  intro subs hsubs habs hex
  rcases hiff.mp hex with ⟨v, hv⟩
  exact habs i (multipleOrgans_main_mem _ (assocFind_mem hsubs)) v hv

/-- C6 witness: label 46 present in a two-voxel volume yields the Bone
file. -/
theorem C6_emit_iff_witness :
    ∃ e ∈ ExecuteSplit (![46, 0] : Vol 2), e.1 = splitFileName 46 ("Bone") :=
  ((C6_emit_iff 2 (![46, 0]) 46 ("Bone") (by decide)).1).mpr ⟨0, by decide⟩

/-- C10: every mask the splitter writes is 0/255-valued (the sub-label sum
never exceeds 255 because a voxel carries at most one sub-label); the
combined file of a MultipleOrgans main id is emitted only when the main
label itself occurs; and a volume holding only the sub-label 47 yields the
Marrow file but no combined Bone file. -/
theorem C10_binary_main_gate :
    (∀ (n : Nat) (seg : Vol n),
      (∀ e ∈ ExecuteSplit seg, ∀ (v : Fin n), e.2 v = 0 ∨ e.2 v = 255) ∧
      (∀ i subs, assocFind MultipleOrgans i = some subs → ∀ (v : Fin n),
        (subs.map (fun s => extractOrgan seg s v)).sum ≤ 255) ∧
      (∀ i nm, (i, nm) ∈ StandardName →
        (∃ e ∈ ExecuteSplit seg, e.1 = splitFileName i nm) → ∃ v, seg v = i)) ∧
    (ExecuteSplit (fun _ : Fin 1 => 47)).map Prod.fst = [("47_Marrow.nii")] := by
  constructor
  · intro n seg
    refine ⟨?_, ?_, ?_⟩
    · intro e he v
      rcases executeSplit_source seg he with ⟨p, hp, hc, hep⟩
      rw [hep]
      show splitOrgan seg p.1 v = 0 ∨ splitOrgan seg p.1 v = 255
      unfold splitOrgan
      cases hmo : assocFind MultipleOrgans p.1 with
      | none =>
        show extractOrgan seg p.1 v = 0 ∨ extractOrgan seg p.1 v = 255
        unfold extractOrgan
        by_cases hv : seg v = p.1 <;> simp [hv]
      | some subs =>
        show assembleMultipleOrgans seg subs v = 0 ∨ assembleMultipleOrgans seg subs v = 255
        have hnd : subs.Nodup := multipleOrgans_nodup _ (assocFind_mem hmo)
        rw [amo_spec seg subs hnd v]
        by_cases h : ∃ s ∈ subs, seg v = s <;> simp [h]
    · intro i subs hsubs v
      have hnd : subs.Nodup := multipleOrgans_nodup _ (assocFind_mem hsubs)
      rw [extract_sum_of_nodup seg subs hnd v]
      by_cases h : ∃ s ∈ subs, seg v = s <;> simp [h]
    · intro i nm hinm hex
      rcases hex with ⟨e, he, hname⟩
      rcases executeSplit_source seg he with ⟨p, hp, hc, hep⟩
      have hpe : p = (i, nm) := by
        apply splitFileName_inj p hp (i, nm) hinm
        rw [hep] at hname
        exact hname
      rw [hpe] at hc
      exact (containsId_iff seg i).mp hc
  · decide

/-- C10 witness: the Bone mask written for the volume 46, 47 is 0/255 at
voxel 0, and the combined-file gate applied to a volume holding 46. -/
theorem C10_binary_main_gate_witness :
    (splitOrgan (![46, 47] : Vol 2) 46 0 = 0 ∨ splitOrgan (![46, 47] : Vol 2) 46 0 = 255) ∧
      (∃ v : Fin 2, (![46, 0] : Vol 2) v = 46) :=
  ⟨(C10_binary_main_gate.1 2 (![46, 47])).1
      (splitFileName 46 ("Bone"), splitOrgan (![46, 47]) 46) (by decide) 0,
    (C10_binary_main_gate.1 2 (![46, 0])).2.2 46 ("Bone") (by decide) (by decide)⟩


/-! ### Lookup under permutation -/

lemma assocFind_perm {α β : Type} [DecidableEq α] {l₁ l₂ : List (α × β)}
    (hperm : l₁.Perm l₂) :
    (l₂.map Prod.fst).Nodup → ∀ k, assocFind l₁ k = assocFind l₂ k := by
  induction hperm with
  | nil => intro _ k; rfl
  | cons p h ih =>
    intro hnd k
    simp only [List.map_cons, List.nodup_cons] at hnd
    simp only [assocFind]
    by_cases hk : p.1 = k
    · rw [if_pos hk, if_pos hk]
    · rw [if_neg hk, if_neg hk]
      exact ih hnd.2 k
  | swap x y l =>
    intro hnd k
    simp only [List.map_cons, List.nodup_cons, List.mem_cons] at hnd
    have hxy : x.1 ≠ y.1 := fun he => hnd.1 (Or.inl he)
    simp only [assocFind]
    by_cases hx : x.1 = k <;> by_cases hy : y.1 = k
    · exact absurd (hx.trans hy.symm) hxy
    · rw [if_neg hy, if_pos hx, if_pos hx]
    · rw [if_pos hy, if_neg hx, if_pos hy]
    · rw [if_neg hy, if_neg hx, if_neg hx, if_neg hy]
  | trans h₁ h₂ ih₁ ih₂ =>
    intro hnd k
    have hndm := (List.Perm.nodup_iff (List.Perm.map Prod.fst h₂)).mpr hnd
    rw [ih₁ hndm k, ih₂ hnd k]

/-! ### The assembler on pairwise disjoint folders -/

lemma assemble_disjoint_char (order : List (String × Nat)) (folder : List (String × Vol n))
    (hfn : (folder.map Prod.fst).Nodup)
    (hon : (order.map Prod.fst).Nodup)
    (hdisj : ∀ p ∈ folder, ∀ q ∈ folder, p.1 ≠ q.1 → ∀ w, p.2 w = 0 ∨ q.2 w = 0)
    (v : Fin n) :
    assembleFrom folder order (fun _ => 0) v =
      (folder.map (fun q => if q.2 v ≠ 0 then (assocFind order q.1).getD 0 else 0)).sum := by
  rw [assembleFrom_char]
  by_cases hfg : ∃ q ∈ folder, q.2 v ≠ 0
  · obtain ⟨q₀, hq₀, hfgq⟩ := hfg
    have huniqF : ∀ q ∈ folder, q.2 v ≠ 0 → q = q₀ := by
      intro q hq hfq
      by_cases hname : q.1 = q₀.1
      · exact keys_nodup_inj hfn hq hq₀ hname
      · rcases hdisj q hq q₀ hq₀ hname v with h | h
        · exact absurd h hfq
        · exact absurd h hfgq
    have hsum : (folder.map (fun q => if q.2 v ≠ 0 then (assocFind order q.1).getD 0 else 0)).sum =
        (if q₀.2 v ≠ 0 then (assocFind order q₀.1).getD 0 else 0) := by
      apply sum_single _ hfn hq₀
      intro q hq hne
      by_cases hfq : q.2 v ≠ 0
      · exact absurd (congrArg Prod.fst (huniqF q hq hfq)) hne
      · simp [hfq]
    rw [hsum, if_pos hfgq]
    cases hi : assocFind order q₀.1 with
    | some i₀ =>
      have hordermem : (q₀.1, i₀) ∈ order := assocFind_mem hi
      have hact : activeAt folder (q₀.1, i₀) v :=
        ⟨q₀.2, assocFind_self hfn hq₀, hfgq⟩
      have hallact : ∀ p ∈ order, activeAt folder p v → p.2 = i₀ := by
        rintro p hp ⟨m, hfind, hm⟩
        have hqm : (p.1, m) ∈ folder := assocFind_mem hfind
        have hq : (p.1, m) = q₀ := huniqF _ hqm hm
        have hp1 : p.1 = q₀.1 := congrArg Prod.fst hq
        have hpo : p = (q₀.1, i₀) := keys_nodup_inj hon hp hordermem hp1
        rw [hpo]
      rw [lastPaint_unique folder v i₀ order ⟨(q₀.1, i₀), hordermem, hact⟩ hallact none]
    | none =>
      have hnoact : ∀ p ∈ order, ¬ activeAt folder p v := by
        rintro p hp ⟨m, hfind, hm⟩
        have hq : (p.1, m) = q₀ := huniqF _ (assocFind_mem hfind) hm
        have hp1 : p.1 = q₀.1 := congrArg Prod.fst hq
        have hs : assocFind order p.1 = some p.2 := assocFind_self hon hp
        rw [hp1] at hs
        rw [hi] at hs
        exact Option.noConfusion hs
      rw [lastPaint_inactive folder v order hnoact none]
  · have hnoact : ∀ p ∈ order, ¬ activeAt folder p v := by
      rintro p hp ⟨m, hfind, hm⟩
      exact hfg ⟨(p.1, m), assocFind_mem hfind, hm⟩
    rw [lastPaint_inactive folder v order hnoact none]
    have hsum : (folder.map (fun q => if q.2 v ≠ 0 then (assocFind order q.1).getD 0 else 0)).sum = 0 := by
      apply List.sum_eq_zero
      intro x hx
      rcases List.mem_map.mp hx with ⟨q, hq, hqx⟩
      rw [← hqx]
      have : ¬ q.2 v ≠ 0 := fun hne => hfg ⟨q, hq, hne⟩
      simp [this]
    rw [hsum]
    rfl

/-! ### Validation helpers for Execute -/

lemma executeAssemble_ok (folder : List (String × Vol n))
    (hall : ∀ p ∈ folder, (assocFind OrganID p.1).isSome) :
    ExecuteAssemble folder = Except.ok (assembleFrom folder OrganID (fun _ => 0)) := by
  show (if ((folder.map Prod.fst).filter
      (fun s => (assocFind OrganID s).isNone)).isEmpty then _ else _) = _
  rw [if_pos (by
    rw [List.isEmpty_iff]
    apply List.filter_eq_nil_iff.mpr
    intro s hs
    rcases List.mem_map.mp hs with ⟨q, hq, hqs⟩
    rcases Option.isSome_iff_exists.mp (hall q hq) with ⟨b, hb⟩
    rw [← hqs, hb]
    simp)]

lemma executeAssemble_error (folder : List (String × Vol n))
    (hmiss : ∃ p ∈ folder, assocFind OrganID p.1 = none) :
    ExecuteAssemble folder = Except.error ("Missed organ in OrganID.") := by
  obtain ⟨p, hp, hnone⟩ := hmiss
  show (if ((folder.map Prod.fst).filter
      (fun s => (assocFind OrganID s).isNone)).isEmpty then _ else _) = _
  have hmem : p.1 ∈ (folder.map Prod.fst).filter
      (fun s => (assocFind OrganID s).isNone) :=
    List.mem_filter.mpr ⟨List.mem_map_of_mem Prod.fst hp, by rw [hnone]; rfl⟩
  rw [if_neg (by
    intro he
    rw [List.isEmpty_iff] at he
    rw [he] at hmem
    simp at hmem)]


/-- C3: on pairwise disjoint masks the assembler output is the voxel-wise
union of the masks scaled by their ids (here written as the sum of the
per-file contributions, at most one of which is non-zero per voxel), and
the result does not depend on the paint order: any permutation of the
OrganID table paints the same volume. -/
theorem C3_disjoint_union :
    ∀ (n : Nat) (folder : List (String × Vol n)),
      (folder.map Prod.fst).Nodup →
      (∀ p ∈ folder, (assocFind OrganID p.1).isSome) →
      (∀ p ∈ folder, ∀ q ∈ folder, p.1 ≠ q.1 → ∀ w, p.2 w = 0 ∨ q.2 w = 0) →
      ExecuteAssemble folder = Except.ok (assembleFrom folder OrganID (fun _ => 0)) ∧
      (∀ v, assembleFrom folder OrganID (fun _ => 0) v =
        (folder.map (fun q => if q.2 v ≠ 0 then (assocFind OrganID q.1).getD 0 else 0)).sum) ∧
      (∀ order : List (String × Nat), order.Perm OrganID →
        assembleFrom folder order (fun _ => 0) = assembleFrom folder OrganID (fun _ => 0)) := by
  intro n folder hfn hall hdisj
  refine ⟨executeAssemble_ok folder hall, ?_, ?_⟩
  · intro v
    exact assemble_disjoint_char OrganID folder hfn organID_keys_nodup hdisj v
  · intro order hperm
    have hon : (order.map Prod.fst).Nodup :=
      (List.Perm.nodup_iff (List.Perm.map Prod.fst hperm)).mpr organID_keys_nodup
    funext v
    rw [assemble_disjoint_char order folder hfn hon hdisj v,
      assemble_disjoint_char OrganID folder hfn organID_keys_nodup hdisj v]
    apply congrArg List.sum
    apply List.map_congr_left
    intro q hq
    rw [assocFind_perm hperm organID_keys_nodup q.1]

/-- C3 witness: two disjoint masks pass validation and assemble. -/
theorem C3_disjoint_union_witness :
    ExecuteAssemble ([(("Muscle", ![255, 0])), (("Heart", ![0, 255]))] : List (String × Vol 2)) =
      Except.ok (assembleFrom ([(("Muscle", ![255, 0])), (("Heart", ![0, 255]))])
        OrganID (fun _ => 0)) :=
  (C3_disjoint_union 2 _ (by decide) (by decide) (by decide)).1

/-! ### The voxel-level inversion used for the round trip -/

lemma assemble_voxel_iff (folder : List (String × Vol n))
    (hfn : (folder.map Prod.fst).Nodup)
    (hdisj : ∀ p ∈ folder, ∀ q ∈ folder, p.1 ≠ q.1 → ∀ w, p.2 w = 0 ∨ q.2 w = 0)
    {name₀ : String} {m₀ : Vol n} {i₀ : Nat}
    (hq₀ : (name₀, m₀) ∈ folder)
    (hfind : assocFind OrganID name₀ = some i₀)
    (huniq : ∀ q ∈ folder, q.1 ≠ name₀ → assocFind OrganID q.1 ≠ some i₀)
    (v : Fin n) :
    assembleFrom folder OrganID (fun _ => 0) v = i₀ ↔ m₀ v ≠ 0 := by
  have hordermem : (name₀, i₀) ∈ OrganID := assocFind_mem hfind
  constructor
  · intro hseg
    rw [assembleFrom_char] at hseg
    cases hl : lastPaintFrom folder OrganID v none with
    | none =>
      rw [hl] at hseg
      have hz : (0 : Nat) = i₀ := hseg
      have : i₀ ≠ 0 := organID_vals_pos (name₀, i₀) hordermem
      exact absurd hz.symm this
    | some j =>
      rw [hl] at hseg
      have hj : j = i₀ := hseg
      rcases lastPaint_active_of_some folder v OrganID none j hl with
        ⟨p, hp, ⟨m, hfindm, hm⟩, hpj⟩ | habs
      · have hmemF : (p.1, m) ∈ folder := assocFind_mem hfindm
        have hOID : assocFind OrganID p.1 = some p.2 :=
          assocFind_self organID_keys_nodup hp
        by_cases hname : p.1 = name₀
        · have : (p.1, m) = (name₀, m₀) :=
            keys_nodup_inj hfn hmemF hq₀ hname
          have hmm : m = m₀ := congrArg Prod.snd this
          rw [hmm] at hm
          exact hm
        · exfalso
          apply huniq (p.1, m) hmemF hname
          rw [hOID, hpj, hj]
      · exact absurd habs (by simp)
  · intro hm₀
    rw [assembleFrom_char]
    have hact : activeAt folder (name₀, i₀) v :=
      ⟨m₀, assocFind_self hfn hq₀, hm₀⟩
    have hallact : ∀ p ∈ OrganID, activeAt folder p v → p.2 = i₀ := by
      rintro p hp ⟨m, hfindm, hm⟩
      have hmemF : (p.1, m) ∈ folder := assocFind_mem hfindm
      by_cases hname : p.1 = name₀
      · have hpo : p = (name₀, i₀) :=
          keys_nodup_inj organID_keys_nodup hp hordermem hname
        rw [hpo]
      · exfalso
        rcases hdisj (p.1, m) hmemF (name₀, m₀) hq₀ hname v with h | h
        · exact hm h
        · exact hm₀ h
    rw [lastPaint_unique folder v i₀ OrganID ⟨(name₀, i₀), hordermem, hact⟩ hallact none]
    rfl

/-- C2 counterexample: the claim fails as stated.  With the overlapping
masks Muscle (foreground at voxel 0) and Heart (foreground everywhere),
assembly succeeds, the Muscle id 13 is not a MultipleOrgans key, yet the
splitter writes only the Heart file and no written mask equals the
original Muscle mask - the round trip does not reproduce it. -/
theorem C2_roundtrip_counterexample :
    ExecuteAssemble ([(("Muscle", ![255, 0])), (("Heart", ![255, 255]))] : List (String × Vol 2)) =
      Except.ok (assembleFrom ([(("Muscle", ![255, 0])), (("Heart", ![255, 255]))])
        OrganID (fun _ => 0)) ∧
    assocFind MultipleOrgans 13 = none ∧
    (ExecuteSplit (assembleFrom ([(("Muscle", ![255, 0])), (("Heart", ![255, 255]))] :
        List (String × Vol 2)) OrganID (fun _ => 0))).map Prod.fst = [("26_Heart.nii")] ∧
    (ExecuteSplit (assembleFrom ([(("Muscle", ![255, 0])), (("Heart", ![255, 255]))] :
        List (String × Vol 2)) OrganID (fun _ => 0))).all
      (fun e => decide (¬ e.2 = ![255, 0])) = true := by
  refine ⟨rfl, rfl, by decide, by decide⟩

/-- C2 (amended): the round trip reproduces a mask under the conditions
the counterexample forces: the input masks are 0/255-valued with pairwise
disjoint foregrounds, every stem is a key of OrganID, no other input file
maps to the id of the organ, the id is not a MultipleOrgans key, and the mask
is non-empty.  Then the assembled volume splits back to a file whose mask
is voxel-for-voxel the original. -/
theorem C2_roundtrip :
    ∀ (n : Nat) (folder : List (String × Vol n)) (name₀ : String) (m₀ : Vol n)
      (i₀ : Nat) (nm₀ : String),
      (folder.map Prod.fst).Nodup →
      (∀ p ∈ folder, (assocFind OrganID p.1).isSome) →
      (∀ p ∈ folder, ∀ q ∈ folder, p.1 ≠ q.1 → ∀ w, p.2 w = 0 ∨ q.2 w = 0) →
      (∀ p ∈ folder, ∀ w, p.2 w = 0 ∨ p.2 w = 255) →
      (name₀, m₀) ∈ folder →
      assocFind OrganID name₀ = some i₀ →
      (∀ q ∈ folder, q.1 ≠ name₀ → assocFind OrganID q.1 ≠ some i₀) →
      assocFind MultipleOrgans i₀ = none →
      (i₀, nm₀) ∈ StandardName →
      (∃ w, m₀ w ≠ 0) →
      ExecuteAssemble folder =
        Except.ok (assembleFrom folder OrganID (fun _ => 0)) ∧
      (splitFileName i₀ nm₀, m₀) ∈ ExecuteSplit (assembleFrom folder OrganID (fun _ => 0)) := by
  intro n folder name₀ m₀ i₀ nm₀ hfn hall hdisj hbin hq₀ hfind huniq hmo hstd hne
  refine ⟨executeAssemble_ok folder hall, ?_⟩
  have hvox := assemble_voxel_iff folder hfn hdisj hq₀ hfind huniq
  have hsplit : splitOrgan (assembleFrom folder OrganID (fun _ => 0)) i₀ = m₀ := by
    funext v
    show (match assocFind MultipleOrgans i₀ with
      | some subs => assembleMultipleOrgans (assembleFrom folder OrganID (fun _ => 0)) subs
      | none => extractOrgan (assembleFrom folder OrganID (fun _ => 0)) i₀) v = m₀ v
    rw [hmo]
    show extractOrgan (assembleFrom folder OrganID (fun _ => 0)) i₀ v = m₀ v
    unfold extractOrgan
    rcases hbin (name₀, m₀) hq₀ v with h0 | h255
    · have h0m : m₀ v = 0 := h0
      rw [if_neg (fun he => ((hvox v).mp he) h0m), h0m]
    · have h255m : m₀ v = 255 := h255
      rw [if_pos ((hvox v).mpr (by rw [h255m]; omega)), h255m]
  have hcont : containsId (assembleFrom folder OrganID (fun _ => 0)) i₀ = true := by
    rcases hne with ⟨w, hw⟩
    exact (containsId_iff _ i₀).mpr ⟨w, (hvox w).mpr hw⟩
  have := executeSplit_mem_of (assembleFrom folder OrganID (fun _ => 0)) hstd hcont
  rw [hsplit] at this
  exact this

/-- C2 witness: disjoint binary Muscle and Heart masks; the Muscle mask
comes back unchanged from the split of the assembled volume. -/
theorem C2_roundtrip_witness :
    (splitFileName 13 ("Muscle"), (![255, 0] : Vol 2)) ∈
      ExecuteSplit (assembleFrom ([(("Muscle", ![255, 0])), (("Heart", ![0, 255]))] :
        List (String × Vol 2)) OrganID (fun _ => 0)) :=
  (C2_roundtrip 2 _ ("Muscle") (![255, 0]) 13 ("Muscle") (by decide) (by decide)
    (by decide) (by decide) (by decide) (by decide) (by decide) (by decide)
    (by decide) (by decide)).2


lemma allPairs_sublist {α : Type} :
    ∀ (l : List α) (pr : α × α), pr ∈ allPairs l → [pr.1, pr.2].Sublist l := by
  intro l
  induction l with
  | nil => intro pr hpr; simp [allPairs] at hpr
  | cons x xs ih =>
    intro pr hpr
    rcases List.mem_append.mp hpr with h1 | h2
    · rcases List.mem_map.mp h1 with ⟨y, hy, hxy⟩
      rw [← hxy]
      exact List.Sublist.cons₂ x (List.singleton_sublist.mpr hy)
    · exact (ih pr h2).cons x

/-- C7: AnalyseOverlap reports a pair exactly when the intersection count
is non-zero and at least one of the two rounded percentages is at least 1;
on pairwise disjoint masks it reports nothing (and the function produces
only a report list, no file). -/
theorem C7_overlap_report :
    ∀ (n : Nat) (folder : List (String × Vol n)) (stop : List String),
      (∀ pr, pr ∈ AnalyseOverlap folder stop ↔
        pr ∈ allPairs (folder.filter (fun p => !(stop.contains p.1))) ∧
        (countOverlap pr.1.2 pr.2.2 ≠ 0 ∧
          (1 ≤ round1 ((countOverlap pr.1.2 pr.2.2 : ℚ) / (countFg pr.1.2 : ℚ) * 100) ∨
           1 ≤ round1 ((countOverlap pr.1.2 pr.2.2 : ℚ) / (countFg pr.2.2 : ℚ) * 100)))) ∧
      ((folder.map Prod.fst).Nodup →
        (∀ p ∈ folder, ∀ q ∈ folder, p.1 ≠ q.1 → ∀ w, p.2 w = 0 ∨ q.2 w = 0) →
        AnalyseOverlap folder stop = []) := by
  intro n folder stop
  constructor
  · intro pr
    show pr ∈ (allPairs (folder.filter (fun p => !(stop.contains p.1)))).filter
        (fun q => overlapReported q.1.2 q.2.2) ↔ _
    rw [List.mem_filter]
    unfold overlapReported
    rw [decide_eq_true_eq]
  · intro hfn hdisj
    show (allPairs (folder.filter (fun p => !(stop.contains p.1)))).filter
        (fun q => overlapReported q.1.2 q.2.2) = []
    apply List.filter_eq_nil_iff.mpr
    intro pr hpr
    have hsub : [pr.1, pr.2].Sublist (folder.filter (fun p => !(stop.contains p.1))) :=
      allPairs_sublist _ pr hpr
    have hsubf : [pr.1, pr.2].Sublist folder := hsub.trans (List.filter_sublist folder)
    have h1 : pr.1 ∈ folder := hsubf.subset (List.mem_cons_self _ _)
    have h2 : pr.2 ∈ folder := hsubf.subset (by simp)
    have hnd2 : [pr.1.1, pr.2.1].Nodup := by
      have hmap : [pr.1.1, pr.2.1].Sublist (folder.map Prod.fst) := by
        have := hsubf.map Prod.fst
        simpa using this
      exact hfn.sublist hmap
    have hne : pr.1.1 ≠ pr.2.1 := by
      rcases List.nodup_cons.mp hnd2 with ⟨hnin, _⟩
      exact fun he => hnin (by rw [he]; simp)
    have hcount : countOverlap pr.1.2 pr.2.2 = 0 := by
      apply Finset.card_eq_zero.mpr
      apply Finset.filter_eq_empty_iff.mpr
      intro v _
      rintro ⟨ha, hb⟩
      rcases hdisj pr.1 h1 pr.2 h2 hne v with h | h
      · exact ha h
      · exact hb h
    simp [overlapReported, hcount]

/-- C7 witness: two disjoint masks produce an empty report. -/
theorem C7_overlap_report_witness :
    AnalyseOverlap ([(("A", ![255, 0])), (("B", ![0, 255]))] : List (String × Vol 2)) [] = [] :=
  (C7_overlap_report 2 _ []).2 (by decide) (by decide)

/-- C8 (amended): a file failing the jpg type check aborts the conversion
with no output written and before the offending or any later slice is
processed, but the slices of the files preceding it in directory order
have already been placed into the in-memory volume. -/
theorem C8_type_check :
    ∀ (z r c : Nat) (pre post : List (SliceFile z r c)) (bad : SliceFile z r c) (t : Nat),
      (∀ f ∈ pre, f.kind = "jpg") → bad.kind ≠ "jpg" →
      OrganConvert (pre ++ bad :: post) t = Except.error ("Wrong type in specified folder.") ∧
      convertLoop (pre ++ bad :: post) (fun _ _ _ => 0) =
        (placeAll pre (fun _ _ _ => 0), some ("Wrong type in specified folder.")) := by
  intro z r c pre post bad t hpre hbad
  have hloop : convertLoop (pre ++ bad :: post) (fun _ _ _ => 0) =
      (placeAll pre (fun _ _ _ => 0), some ("Wrong type in specified folder.")) := by
    rw [convertLoop_append_good pre (bad :: post) _ hpre]
    simp only [convertLoop, if_neg hbad]
  refine ⟨?_, hloop⟩
  unfold OrganConvert
  rw [hloop]

def c8Good : SliceFile 2 1 1 := ⟨("jpg"), 0, fun _ _ => 255⟩

def c8Bad : SliceFile 2 1 1 := ⟨("png"), 1, fun _ _ => 0⟩

/-- C8 counterexample: with a good jpg slice followed by a non-jpg file,
the conversion aborts with no output, but the first slice has already
been read into the in-memory volume, so the abort does not happen before
any slice is processed. -/
theorem C8_type_check_counterexample :
    OrganConvert [c8Good, c8Bad] 128 = Except.error ("Wrong type in specified folder.") ∧
    (convertLoop [c8Good, c8Bad] (fun _ _ _ => 0)).1 ≠ (fun _ _ _ => 0) := by
  refine ⟨rfl, by decide⟩

/-- C8 witness: the amended statement at the counterexample input. -/
theorem C8_type_check_witness :
    OrganConvert [c8Good, c8Bad] 128 = Except.error ("Wrong type in specified folder.") ∧
    convertLoop [c8Good, c8Bad] (fun _ _ _ => 0) =
      (placeAll [c8Good] (fun _ _ _ => 0), some ("Wrong type in specified folder.")) := by
  have := C8_type_check 2 1 1 [c8Good] [] c8Bad 128 (by decide) (by decide)
  exact this

/-- C9 (amended): after all slices are placed, a voxel strictly above the
threshold becomes 255 and one at or below it becomes 0 (for 8-bit slice
data), and the successful output is the placed-and-binarized array flipped
along every one of the three axes (np.flip with no axis), not along one
axis. -/
theorem C9_binarize_flip :
    ∀ (z r c : Nat) (files : List (SliceFile z r c)) (t : Nat)
      (out : Fin z → Fin r → Fin c → Nat),
      OrganConvert files t = Except.ok out →
      (out = npFlip (fun i j k => binarize t (placeAll files (fun _ _ _ => 0) i j k))) ∧
      (∀ v, v ≤ 255 → binarize t v = if t < v then 255 else 0) := by
  intro z r c files t out hok
  constructor
  · cases hcl : convertLoop files (fun _ _ _ => 0) with
    | mk seg err =>
      cases err with
      | some e =>
        exfalso
        unfold OrganConvert at hok
        rw [hcl] at hok
        exact Except.noConfusion hok
      | none =>
        have hjpg : ∀ f ∈ files, f.kind = "jpg" :=
          convertLoop_no_error files _ (by rw [hcl])
        have hgood := convertLoop_good files (fun _ _ _ => 0) hjpg
        rw [hgood] at hcl
        have hseg : seg = placeAll files (fun _ _ _ => 0) := (Prod.mk.injEq _ _ _ _).mp hcl.symm |>.1
        unfold OrganConvert at hok
        rw [hgood] at hok
        have : npFlip (fun i j k => binarize t (placeAll files (fun _ _ _ => 0) i j k)) = out :=
          Except.ok.inj hok
        exact this.symm
  · intro v hv
    show (if (if t < v then 255 else v) ≤ t then 0 else (if t < v then 255 else v)) =
      if t < v then 255 else 0
    by_cases ht : t < v
    · rw [if_pos ht, if_pos ht, if_neg (by omega)]
    · rw [if_neg ht, if_neg ht, if_pos (by omega)]

def c9Slice : SliceFile 2 2 1 := ⟨("jpg"), 0, fun j _ => if j = 0 then 255 else 0⟩

def c9Vol : Fin 2 → Fin 2 → Fin 1 → Nat :=
  fun i j k => binarize 128 (placeAll [c9Slice] (fun _ _ _ => 0) i j k)

/-- C9 counterexample: the output of a successful conversion is the
complete flip of the binarized volume, and on this input it differs from
the flip along any single axis, so the array is not flipped along exactly
one axis. -/
theorem C9_binarize_flip_counterexample :
    OrganConvert [c9Slice] 128 = Except.ok (npFlip c9Vol) ∧
    npFlip c9Vol ≠ flipAxis0 c9Vol ∧
    npFlip c9Vol ≠ flipAxis1 c9Vol ∧
    npFlip c9Vol ≠ flipAxis2 c9Vol := by
  refine ⟨rfl, by decide, by decide, by decide⟩

/-- C9 witness: the binarization conclusion at threshold 128 and value
255, from the successful concrete conversion. -/
theorem C9_binarize_flip_witness :
    binarize 128 255 = (if 128 < 255 then 255 else 0) :=
  (C9_binarize_flip 2 2 1 [c9Slice] 128 (npFlip c9Vol) rfl).2 255 (by omega)


end Seg
